import Mathlib

/-!
Shallow embedding of `src/backport.ts` and `src/index.ts` of the
`action-backport` GitHub action.

External operations (git subprocess invocations and GitHub REST calls) are
modelled as an explicit trace of `Effect`s together with an oracle `Env` that
decides the outcome of each operation; the oracle may consult the trace of
effects performed so far, so outcomes can depend on history.  Exceptions are
modelled with `Except String`; every function returns the trace of effects it
performed together with its `Except` result, exactly mirroring the order of
`await`ed operations and the `try`/`catch` structure of the source.
-/

namespace ActionBackport

/-- One observable external operation: a git subprocess invocation (with its
working directory, `none` for the process-wide one) or one of the four GitHub
REST calls used by `backport.ts`. -/
inductive Effect where
  | git (cwd : Option String) (args : List String)
  | apiGetRepo (owner repo : String)
  | apiCreatePull (owner repo base head title body : String)
  | apiSetLabels (owner repo : String) (issueNumber : Nat) (labels : List String)
  | apiCreateComment (owner repo : String) (issueNumber : Nat) (body : String)
  deriving DecidableEq, Repr

/-- Outcome oracle for the external world.  Each field receives the trace of
effects already performed (so results may depend on history) plus the
operation's arguments, and returns the operation's result; `.error` models the
awaited call throwing. -/
structure Env where
  gitResult : List Effect → Option String → List String → Except String Unit
  getRepoResult : List Effect → String → String → Except String Bool
  createPullResult :
    List Effect → String → String → String → String → String → String → Except String Nat
  setLabelsResult : List Effect → String → String → Nat → List String → Except String Unit
  createCommentResult : List Effect → String → String → Nat → String → Except String Unit

/-- Run one git command: record the effect and ask the oracle for the outcome. -/
def gitStep (env : Env) (tr : List Effect) (cwd : Option String) (args : List String) :
    List Effect × Except String Unit :=
  (tr ++ [Effect.git cwd args], env.gitResult tr cwd args)

/-- Result of `labelRegExp.exec(label)` when the label matches.
`groups = none` models `result.groups === undefined` (the regular expression
has no named capturing groups at all); `groups = some g` models the groups
object, with `g : Option String` the value of its `base` property
(`none` for `undefined`). -/
structure ExecResult where
  groups : Option (Option String)
  deriving DecidableEq, Repr

/-- A JavaScript `RegExp` as consumed by `backport.ts`: its string rendering
(`String(labelRegExp)`, used in error messages) and its `exec` behaviour on
each label.  The regular-expression engine itself is an external collaborator,
so it enters the model as an abstract function. -/
structure LabelRegExp where
  str : String
  exec : String → Option ExecResult

/-- `labelRegExp.test(label)`: true exactly when `exec` matches. -/
def LabelRegExp.check (r : LabelRegExp) (label : String) : Bool :=
  (r.exec label).isSome

/-- The pull-request fields of the webhook payload used by `backport.ts`
(`payload.pull_request`); labels are carried by name. -/
structure PullRequest where
  body : Option String
  labels : List String
  commits : Nat
  merge_commit_sha : Option String
  merged : Bool
  number : Nat
  title : String
  deriving DecidableEq, Repr

/-- The repository fields of the webhook payload used by `backport.ts`. -/
structure Repository where
  name : String
  owner : String
  clone_url : String
  deriving DecidableEq, Repr

/-- The trigger payload: `PullRequestClosedEvent` or `PullRequestLabeledEvent`.
The `labeled` variant carries the name of the label that was just added
(`payload.label.name`); the `"label" in payload` test of the source becomes
the case split on this constructor. -/
inductive Payload where
  | closed (pull_request : PullRequest) (repository : Repository)
  | labeled (labelName : String) (pull_request : PullRequest) (repository : Repository)
  deriving DecidableEq, Repr

def Payload.pull_request : Payload → PullRequest
  | .closed pr _ => pr
  | .labeled _ pr _ => pr

def Payload.repository : Payload → Repository
  | .closed _ r => r
  | .labeled _ _ r => r

/-- The error message thrown by `getBaseBranchFromLabel` when the pattern
matches but the `base` named capturing group is absent or empty. -/
def missedBaseMessage (labelRegExp : LabelRegExp) (label : String) : String :=
  "RegExp \"" ++ labelRegExp.str ++ "\" matched \"" ++ label ++
    "\" but missed a \"base\" named capturing group."

/-- `getBaseBranchFromLabel` (backport.ts lines 12-33).  Returns `.ok none`
when the pattern does not match, or matches without any named groups; throws
when the groups object exists but `base` is `undefined` or `""` (both falsy);
returns the captured branch otherwise. -/
def getBaseBranchFromLabel (labelRegExp : LabelRegExp) (label : String) :
    Except String (Option String) :=
  match labelRegExp.exec label with
  | none => .ok none
  | some result =>
    match result.groups with
    | none => .ok none
    | some base =>
      match base with
      | none => .error (missedBaseMessage labelRegExp label)
      | some b =>
        if b = "" then .error (missedBaseMessage labelRegExp label)
        else .ok (some b)

/-- lodash `compact` on the mapped results: drops `undefined` and `""`
(the falsy values that can appear in the list). -/
def compact (l : List (Option String)) : List String :=
  l.filterMap fun s =>
    match s with
    | none => none
    | some b => if b = "" then none else some b

/-- `getBaseBranches` (backport.ts lines 35-52).  A labeled event consults the
single triggering label (`base ? [base] : []`); a closed event maps
`getBaseBranchFromLabel` over every label of the pull request (the first throw
aborts the whole map, as in JavaScript) and compacts the results. -/
def getBaseBranches (labelRegExp : LabelRegExp) (payload : Payload) :
    Except String (List String) :=
  match payload with
  | .labeled labelName _ _ =>
    match getBaseBranchFromLabel labelRegExp labelName with
    | .error e => .error e
    | .ok base =>
      .ok (match base with
           | none => []
           | some b => if b = "" then [] else [b])
  | .closed pr _ =>
    match pr.labels.mapM (getBaseBranchFromLabel labelRegExp) with
    | .error e => .error e
    | .ok results => .ok (compact results)

/-- `warnIfMergeCommitIsAllowedMergeMethod` (backport.ts lines 54-76): one
`GET /repos/{owner}/{repo}` call; the warning itself is only a log line and
leaves no trace in the model. -/
def warnIfMergeCommitIsAllowedMergeMethod (env : Env) (tr : List Effect)
    (owner repo : String) : List Effect × Except String Unit :=
  let tr' := tr ++ [Effect.apiGetRepo owner repo]
  match env.getRepoResult tr owner repo with
  | .error e => (tr', .error e)
  | .ok _ => (tr', .ok ())

/-- The arguments of `backportOnce` (backport.ts lines 78-98). -/
structure BackportOnceArgs where
  base : String
  body : String
  commitSha : String
  head : String
  labels : List String
  owner : String
  repo : String
  title : String
  deriving Repr

/-- `backportOnce` (backport.ts lines 78-138): switch to `base`, create
`head`, cherry-pick `commitSha` with `-x` (aborting the cherry-pick and
re-throwing on failure), push, create the pull request, and bulk-set labels
when any were derived. -/
def backportOnce (env : Env) (tr : List Effect) (a : BackportOnceArgs) :
    List Effect × Except String Nat :=
  let (tr1, r1) := gitStep env tr (some a.repo) ["switch", a.base]
  match r1 with
  | .error e => (tr1, .error e)
  | .ok _ =>
    let (tr2, r2) := gitStep env tr1 (some a.repo) ["switch", "--create", a.head]
    match r2 with
    | .error e => (tr2, .error e)
    | .ok _ =>
      let (tr3, r3) := gitStep env tr2 (some a.repo) ["cherry-pick", "-x", a.commitSha]
      match r3 with
      | .error e =>
        let (tr4, r4) := gitStep env tr3 (some a.repo) ["cherry-pick", "--abort"]
        match r4 with
        | .error e2 => (tr4, .error e2)
        | .ok _ => (tr4, .error e)
      | .ok _ =>
        let (tr4, r4) := gitStep env tr3 (some a.repo) ["push", "--set-upstream", "origin", a.head]
        match r4 with
        | .error e => (tr4, .error e)
        | .ok _ =>
          let tr5 := tr4 ++ [Effect.apiCreatePull a.owner a.repo a.base a.head a.title a.body]
          match env.createPullResult tr4 a.owner a.repo a.base a.head a.title a.body with
          | .error e => (tr5, .error e)
          | .ok number =>
            if a.labels.length > 0 then
              let tr6 := tr5 ++ [Effect.apiSetLabels a.owner a.repo number a.labels]
              match env.setLabelsResult tr5 a.owner a.repo number a.labels with
              | .error e => (tr6, .error e)
              | .ok _ => (tr6, .ok number)
            else
              (tr5, .ok number)

/-- `getFailedBackportCommentBody` (backport.ts lines 140-178): the recovery
comment, `join("\n")` of the literal lines of the source. -/
def getFailedBackportCommentBody (base commitSha errorMessage head : String) : String :=
  let worktreePath := ".worktrees/backport-" ++ base
  String.intercalate "\n"
    [ "The backport to `" ++ base ++ "` failed:",
      "```",
      errorMessage,
      "```",
      "To backport manually, run these commands in your terminal:",
      "```bash",
      "# Fetch latest updates from GitHub",
      "git fetch",
      "# Create a new working tree",
      "git worktree add " ++ worktreePath ++ " " ++ base,
      "# Navigate to the new working tree",
      "cd " ++ worktreePath,
      "# Create a new branch",
      "git switch --create " ++ head,
      "# Cherry-pick the merged commits of this pull request and resolve the conflicts",
      "git cherry-pick -x " ++ commitSha,
      "# Push it to GitHub",
      "git push --set-upstream origin " ++ head,
      "# Go back to the original working tree",
      "cd ../..",
      "# Delete the working tree",
      "git worktree remove " ++ worktreePath,
      "```",
      "Then, create a pull request where the `base` branch is `" ++ base ++
        "` and the `compare`/`head` branch is `" ++ head ++ "`." ]

/-- The configuration half of `backport`'s props (backport.ts lines 180-218):
the four template functions, the label pattern and the token.  Argument order
of each function follows the alphabetical field order of the source's props:
`getBody (base, body, mergeCommitSha, number)`, `getHead (base, number)`,
`getLabels (base, labels)`, `getTitle (base, number, title)`. -/
structure BackportProps where
  getBody : String → String → String → Nat → String
  getHead : String → Nat → String
  getLabels : String → List String → List String
  getTitle : String → Nat → String → String
  labelRegExp : LabelRegExp
  token : String

/-- Models `new URL(cloneUrl)` with `username = "x-access-token"` and
`password = token`, re-serialized: the credential pair is inserted after the
scheme separator.  (The WHATWG URL parser is an external collaborator; only
the fact that a token-authenticated URL string is passed to `git clone`
matters to the model.) -/
def authenticatedUrl (cloneUrl token : String) : String :=
  match cloneUrl.splitOn "://" with
  | scheme :: rest =>
    scheme ++ "://" ++ "x-access-token:" ++ token ++ "@" ++ String.intercalate "://" rest
  | [] => cloneUrl

/-- The result map `createdPullRequestBaseBranchToNumber`: a JavaScript object
with string keys, modelled as an insertion-ordered association list. -/
def setEntry (m : List (String × Nat)) (k : String) (v : Nat) : List (String × Nat) :=
  if m.any (fun p => p.1 = k) then
    m.map (fun p => if p.1 = k then (k, v) else p)
  else
    m ++ [(k, v)]

/-- Property lookup on the result map (`m[k]`). -/
def getEntry (m : List (String × Nat)) (k : String) : Option Nat :=
  (m.find? (fun p => p.1 = k)).map (fun p => p.2)

/-- `String(mergeCommitSha)` after the merged-PR guard (backport.ts line 254);
the guard ensures the value is a non-empty string. -/
def mergeCommitOf (pr : PullRequest) : String :=
  pr.merge_commit_sha.getD ""

/-- The commit-or-range to replay (backport.ts lines 255-258):
the merge commit alone for a one-commit pull request, otherwise
`mergeCommit~commitCount..mergeCommit`. -/
def commitToBackport (pr : PullRequest) : String :=
  if pr.commits = 1 then mergeCommitOf pr
  else mergeCommitOf pr ++ "~" ++ toString pr.commits ++ ".." ++ mergeCommitOf pr

/-- The per-branch arguments passed to `backportOnce` from the loop body of
`backport` (backport.ts lines 276-306).  Note `commitSha` receives the bare
`mergeCommitSha` (line 299), while the body template receives
`commitToBackport` (line 280). -/
def mkBackportOnceArgs (props : BackportProps) (payload : Payload) (base : String) :
    BackportOnceArgs :=
  let pr := payload.pull_request
  { base := base
    body := props.getBody base (pr.body.getD "") (commitToBackport pr) pr.number
    commitSha := mergeCommitOf pr
    head := props.getHead base pr.number
    labels := props.getLabels base
      (pr.labels.filter (fun label => !(props.labelRegExp.check label)))
    owner := payload.repository.owner
    repo := payload.repository.name
    title := props.getTitle base pr.number pr.title }

/-- One iteration of the loop of `backport` (backport.ts lines 276-328): run
`backportOnce` for one base branch; on failure, post the recovery comment on
the original pull request and swallow the error (`.ok none`), unless posting
the comment itself throws, in which case that error escapes the `catch`
block. -/
def processBranch (env : Env) (props : BackportProps) (payload : Payload)
    (tr : List Effect) (base : String) : List Effect × Except String (Option Nat) :=
  let pr := payload.pull_request
  let owner := payload.repository.owner
  let repo := payload.repository.name
  match backportOnce env tr (mkBackportOnceArgs props payload base) with
  | (tr', .ok n) => (tr', .ok (some n))
  | (tr', .error e) =>
    let commentBody :=
      getFailedBackportCommentBody base (commitToBackport pr) e
        (mkBackportOnceArgs props payload base).head
    let tr'' := tr' ++ [Effect.apiCreateComment owner repo pr.number commentBody]
    match env.createCommentResult tr' owner repo pr.number commentBody with
    | .error e2 => (tr'', .error e2)
    | .ok _ => (tr'', .ok none)

/-- The `for (const base of baseBranches)` loop of `backport`, threading the
trace and the result map; a successful attempt records its pull-request
number under its base branch (`createdPullRequestBaseBranchToNumber[base] =
backportPullRequestNumber`). -/
def backportLoop (env : Env) (props : BackportProps) (payload : Payload) :
    List String → List Effect → List (String × Nat) →
    List Effect × Except String (List (String × Nat))
  | [], tr, m => (tr, .ok m)
  | base :: rest, tr, m =>
    match processBranch env props payload tr base with
    | (tr', .error e) => (tr', .error e)
    | (tr', .ok none) => backportLoop env props payload rest tr' m
    | (tr', .ok (some n)) => backportLoop env props payload rest tr' (setEntry m base n)

/-- The error thrown when the triggering pull request is not merged or has no
merge commit (backport.ts lines 236-241). -/
def mergedOnlyMessage : String :=
  "For security reasons, this action should only run on merged PRs."

/-- The effects `backport` performs between branch selection and the
per-branch loop: the merge-method advisory lookup, the clone and the two
`git config` calls (backport.ts lines 250-272). -/
def setupEffects (props : BackportProps) (payload : Payload) : List Effect :=
  [ Effect.apiGetRepo payload.repository.owner payload.repository.name,
    Effect.git none ["clone", authenticatedUrl payload.repository.clone_url props.token],
    Effect.git none
      ["config", "--global", "user.email", "github-actions[bot]@users.noreply.github.com"],
    Effect.git none ["config", "--global", "user.name", "github-actions[bot]"] ]

/-- `backport` (backport.ts lines 180-331): validate the merged-PR guard,
select base branches (an empty selection is a no-op success), consult the
merge-method setting, clone and configure git, then drive the per-branch
loop, returning the accumulated result map. -/
def backport (env : Env) (props : BackportProps) (payload : Payload) :
    List Effect × Except String (List (String × Nat)) :=
  let pr := payload.pull_request
  let repo := payload.repository.name
  let owner := payload.repository.owner
  if pr.merged ≠ true ∨ pr.merge_commit_sha.getD "" = "" then
    ([], .error mergedOnlyMessage)
  else
    match getBaseBranches props.labelRegExp payload with
    | .error e => ([], .error e)
    | .ok baseBranches =>
      if baseBranches.length = 0 then
        ([], .ok [])
      else
        let (tr1, r1) := warnIfMergeCommitIsAllowedMergeMethod env [] owner repo
        match r1 with
        | .error e => (tr1, .error e)
        | .ok _ =>
          let cloneUrl := authenticatedUrl payload.repository.clone_url props.token
          let (tr2, r2) := gitStep env tr1 none ["clone", cloneUrl]
          match r2 with
          | .error e => (tr2, .error e)
          | .ok _ =>
            let (tr3, r3) := gitStep env tr2 none
              ["config", "--global", "user.email",
                "github-actions[bot]@users.noreply.github.com"]
            match r3 with
            | .error e => (tr3, .error e)
            | .ok _ =>
              let (tr4, r4) := gitStep env tr3 none
                ["config", "--global", "user.name", "github-actions[bot]"]
              match r4 with
              | .error e => (tr4, .error e)
              | .ok _ => backportLoop env props payload baseBranches tr4 []

/-- Split a character list at every occurrence of `sep`, keeping empty
pieces, as JavaScript `String.prototype.split` does for a one-character
separator. -/
def splitCharsOn (sep : Char) : List Char → List (List Char)
  | [] => [[]]
  | c :: cs =>
    if c = sep then [] :: splitCharsOn sep cs
    else
      match splitCharsOn sep cs with
      | [] => [[c]]
      | h :: t => (c :: h) :: t

/-- JavaScript `input.split(",")`. -/
def jsSplitComma (s : String) : List String :=
  (splitCharsOn ',' s.data).map String.mk

/-- The characters JavaScript `String.prototype.trim` strips (the white-space
and line-terminator characters relevant to label lists). -/
def isJsWhitespace (c : Char) : Bool :=
  c = ' ' || c = '\t' || c = '\n' || c = '\r' || c = '\x0b' || c = '\x0c'

/-- JavaScript `v.trim()`. -/
def jsTrim (s : String) : String :=
  String.mk (((s.data.dropWhile isJsWhitespace).reverse.dropWhile isJsWhitespace).reverse)

/-- `getIssueLabelsToAdd` (index.ts lines 17-24): parse the `issue_labels`
input into a list of labels; `none` models an undefined input. -/
def getIssueLabelsToAdd (input : Option String) : List String :=
  match input with
  | none => []
  | some s =>
    if s = "" then []
    else ((jsSplitComma s).map jsTrim).filter (fun v => v ≠ "")

/-! ### Specification-side helpers

These definitions restate, in the spec's vocabulary, what the Branch Selector
and the per-branch loop are supposed to produce; the claim theorems compare
them with the source-translated definitions above. -/

/-- The `base` value a pattern captures from a label, in the spec's sense:
`some b` exactly when the pattern matches and the `base` named group captured
a non-empty string. -/
def capturedBase (r : LabelRegExp) (label : String) : Option String :=
  match r.exec label with
  | none => none
  | some res =>
    match res.groups with
    | some (some b) => if b = "" then none else some b
    | _ => none

/-- A pattern whose every match carries a non-empty `base` capture — the
well-formedness invariant the spec's `BranchPattern` data model demands. -/
def WellFormedMatches (r : LabelRegExp) : Prop :=
  ∀ label res, r.exec label = some res → ∃ b, res.groups = some (some b) ∧ b ≠ ""

/-- Spec-side description of the per-branch outcomes of the loop of
`backport`: one entry `(base, some n)` per attempt that created pull request
`n`, `(base, none)` per attempt that failed.  Meaningful when posting
recovery comments succeeds (then it lists exactly the attempts the loop
performs, in order). -/
def loopOutcomesSpec (env : Env) (props : BackportProps) (payload : Payload) :
    List String → List Effect → List (String × Option Nat)
  | [], _ => []
  | base :: rest, tr =>
    match processBranch env props payload tr base with
    | (tr', .ok o) => (base, o) :: loopOutcomesSpec env props payload rest tr'
    | (tr', .error _) => (base, none) :: loopOutcomesSpec env props payload rest tr'

/-- Fold step selecting the number of the most recent successful attempt for
base branch `b`. -/
def lastStep (b : String) (acc : Option Nat) (p : String × Option Nat) : Option Nat :=
  if p.1 = b then
    match p.2 with
    | some n => some n
    | none => acc
  else acc

/-- The pull-request number of the last successful attempt for base branch
`b` among the given outcomes, if any. -/
def lastSuccessNumber (outcomes : List (String × Option Nat)) (b : String) : Option Nat :=
  outcomes.foldl (lastStep b) none

/-- The label lists of all bulk label-set calls in a trace. -/
def setLabelLists (tr : List Effect) : List (List String) :=
  tr.filterMap fun e =>
    match e with
    | .apiSetLabels _ _ _ ls => some ls
    | _ => none

/-! ### Concrete fixtures for witnesses and counterexamples -/

/-- A sample repository payload. -/
def repoSample : Repository :=
  { name := "action-backport"
    owner := "zephyr"
    clone_url := "https://github.com/zephyrproject-rtos/action-backport.git" }

/-- A well-formed sample pattern: behaves like `/^backport (?<base>.+)$/` on
the labels used by the fixtures. -/
def rxSample : LabelRegExp :=
  { str := "/^backport (?<base>.+)$/"
    exec := fun l =>
      if l = "backport b1" then some ⟨some (some "b1")⟩
      else if l = "backport b2" then some ⟨some (some "b2")⟩
      else if l = "backport b" then some ⟨some (some "b")⟩
      else none }

/-- A malformed sample pattern: matches `backport b1` but its groups object
has no (defined) `base` property — like `/^backport (?<bse>.+)$/`. -/
def rxNoCapture : LabelRegExp :=
  { str := "/^backport (?<bse>.+)$/"
    exec := fun l =>
      if l = "backport b1" then some ⟨some none⟩ else none }

/-- Number of pull-request-creation calls in a trace (used by the sample
oracle to hand out fresh pull-request numbers). -/
def countCreatePull (tr : List Effect) : Nat :=
  (tr.filter fun e =>
    match e with
    | .apiCreatePull _ _ _ _ _ _ => true
    | _ => false).length

/-- An oracle on which every operation succeeds; pull-request creation hands
out numbers 100, 101, … in creation order. -/
def envAllOk : Env :=
  { gitResult := fun _ _ _ => .ok ()
    getRepoResult := fun _ _ _ => .ok false
    createPullResult := fun tr _ _ _ _ _ _ => .ok (100 + countCreatePull tr)
    setLabelsResult := fun _ _ _ _ _ => .ok ()
    createCommentResult := fun _ _ _ _ _ => .ok () }

/-- An oracle on which every `git cherry-pick -x abc` fails with a conflict
and posting issue comments fails too; everything else succeeds. -/
def envCommentFails : Env :=
  { gitResult := fun _ _ args =>
      if args = ["cherry-pick", "-x", "abc"] then .error "conflict" else .ok ()
    getRepoResult := fun _ _ _ => .ok false
    createPullResult := fun tr _ _ _ _ _ _ => .ok (100 + countCreatePull tr)
    setLabelsResult := fun _ _ _ _ _ => .ok ()
    createCommentResult := fun _ _ _ _ _ => .error "comment failed" }

/-- An oracle on which `git cherry-pick -x abc` fails with a conflict and
everything else (including the abort and the comment) succeeds. -/
def envPickConflict : Env :=
  { gitResult := fun _ _ args =>
      if args = ["cherry-pick", "-x", "abc"] then .error "conflict" else .ok ()
    getRepoResult := fun _ _ _ => .ok false
    createPullResult := fun tr _ _ _ _ _ _ => .ok (100 + countCreatePull tr)
    setLabelsResult := fun _ _ _ _ _ => .ok ()
    createCommentResult := fun _ _ _ _ _ => .ok () }

/-- Sample template functions over `rxSample`. -/
def propsSample : BackportProps :=
  { getBody := fun _ body mergeCommitSha _ => body ++ "|" ++ mergeCommitSha
    getHead := fun base number => "backport-" ++ toString number ++ "-to-" ++ base
    getLabels := fun _ labels => labels
    getTitle := fun _ _ title => title
    labelRegExp := rxSample
    token := "tok" }

/-- Sample template functions over the malformed pattern `rxNoCapture`. -/
def propsNoCapture : BackportProps :=
  { getBody := fun _ body mergeCommitSha _ => body ++ "|" ++ mergeCommitSha
    getHead := fun base number => "backport-" ++ toString number ++ "-to-" ++ base
    getLabels := fun _ labels => labels
    getTitle := fun _ _ title => title
    labelRegExp := rxNoCapture
    token := "tok" }

/-- A merged two-commit pull request labelled for backporting to `b1`. -/
def prTwoCommits : PullRequest :=
  { body := some "orig body"
    labels := ["backport b1"]
    commits := 2
    merge_commit_sha := some "abc"
    merged := true
    number := 42
    title := "T" }

/-- A merged one-commit pull request labelled for `b1` and carrying one
unrelated label. -/
def prOneCommit : PullRequest :=
  { body := some "orig body"
    labels := ["backport b1", "other"]
    commits := 1
    merge_commit_sha := some "abc"
    merged := true
    number := 42
    title := "T" }

/-- A merged pull request labelled for `b1` and `b2`. -/
def prTwoBranches : PullRequest :=
  { body := some "orig body"
    labels := ["backport b1", "backport b2"]
    commits := 1
    merge_commit_sha := some "abc"
    merged := true
    number := 42
    title := "T" }

/-- A closed-but-unmerged pull request. -/
def prUnmerged : PullRequest :=
  { body := some "orig body"
    labels := ["backport b1"]
    commits := 1
    merge_commit_sha := some "abc"
    merged := false
    number := 42
    title := "T" }

/-- A merged pull request with no backport label. -/
def prNoMatch : PullRequest :=
  { body := some "orig body"
    labels := ["other"]
    commits := 1
    merge_commit_sha := some "abc"
    merged := true
    number := 42
    title := "T" }

/-- A merged pull request carrying the same backport label twice, capturing
the base branch `b` twice. -/
def prDuplicate : PullRequest :=
  { body := some "orig body"
    labels := ["backport b", "backport b"]
    commits := 1
    merge_commit_sha := some "abc"
    merged := true
    number := 7
    title := "T" }

/-- Concrete `backportOnce` arguments whose cherry-pick conflicts under
`envPickConflict`. -/
def argsConflict : BackportOnceArgs :=
  { base := "b1"
    body := "B"
    commitSha := "abc"
    head := "h"
    labels := []
    owner := "zephyr"
    repo := "action-backport"
    title := "T" }

/-! ## Claim theorems -/


/-- **C3**: when the triggering pull request's merged flag is not true or its
merge commit identifier is null or empty, the run fails immediately with the
security error and its effect trace is empty — no git operation and no
code-hosting API call happens before the failure. -/
theorem claim_C3 (env : Env) (props : BackportProps) (payload : Payload)
    (h : payload.pull_request.merged ≠ true ∨
      payload.pull_request.merge_commit_sha.getD "" = "") :
    backport env props payload = ([], .error mergedOnlyMessage) := by
  simp only [backport]
  rw [if_pos h]

theorem claim_C3_witness :
    ((Payload.closed prUnmerged repoSample).pull_request.merged ≠ true ∨
      (Payload.closed prUnmerged repoSample).pull_request.merge_commit_sha.getD "" = "")
    ∧ backport envAllOk propsSample (.closed prUnmerged repoSample) =
        ([], .error mergedOnlyMessage) :=
  ⟨by decide, claim_C3 envAllOk propsSample (.closed prUnmerged repoSample) (by decide)⟩

/-- **C9**: when the pull request is merged but its labels yield an empty
target-branch list, the run returns the empty result map and its effect
trace is empty — no git operation and no code-hosting API call occurs. -/
theorem claim_C9 (env : Env) (props : BackportProps) (payload : Payload)
    (h1 : payload.pull_request.merged = true)
    (h2 : payload.pull_request.merge_commit_sha.getD "" ≠ "")
    (h3 : getBaseBranches props.labelRegExp payload = .ok []) :
    backport env props payload = ([], .ok []) := by
  have hc : ¬(payload.pull_request.merged ≠ true ∨
      payload.pull_request.merge_commit_sha.getD "" = "") := by
    simp [h1, h2]
  simp only [backport]
  rw [if_neg hc, h3]
  simp

theorem claim_C9_witness :
    (Payload.closed prNoMatch repoSample).pull_request.merged = true
    ∧ (Payload.closed prNoMatch repoSample).pull_request.merge_commit_sha.getD "" ≠ ""
    ∧ getBaseBranches propsSample.labelRegExp (.closed prNoMatch repoSample) = .ok []
    ∧ backport envAllOk propsSample (.closed prNoMatch repoSample) = ([], .ok []) :=
  ⟨by decide, by decide, rfl,
    claim_C9 envAllOk propsSample (.closed prNoMatch repoSample) (by decide) (by decide) rfl⟩


/-- **C1** (code bug): on a merged two-commit pull request the computed
replay spec is `abc~2..abc`, yet the run's trace cherry-picks the bare merge
commit `abc` and never the range — `backport` passes `mergeCommitSha`, not
`commitToBackport`, to `backportOnce` (backport.ts line 299). -/
theorem claim_C1_bug :
    commitToBackport prTwoCommits = "abc~2..abc"
    ∧ Effect.git (some "action-backport") ["cherry-pick", "-x", "abc"]
        ∈ (backport envAllOk propsSample (.closed prTwoCommits repoSample)).1
    ∧ Effect.git (some "action-backport") ["cherry-pick", "-x", "abc~2..abc"]
        ∉ (backport envAllOk propsSample (.closed prTwoCommits repoSample)).1 := by
  refine ⟨rfl, ?_, ?_⟩ <;> decide

/-- **C2** (code bug): the `issue_labels` input parses to a non-empty static
label list, yet a successful run's only bulk label-set call carries exactly
the template-derived labels and not the static one — `backport`'s parameter
list has no `issueLabels` field, so the value passed by index.ts is
dropped. -/
theorem claim_C2_bug :
    getIssueLabelsToAdd (some "extra-label") = ["extra-label"]
    ∧ (backport envAllOk propsSample (.closed prOneCommit repoSample)).2 = .ok [("b1", 100)]
    ∧ setLabelLists (backport envAllOk propsSample (.closed prOneCommit repoSample)).1 = [["other"]]
    ∧ "extra-label" ∉ ["other"] := by
  exact ⟨by decide, rfl, rfl, by decide⟩

/-- On a well-formed pattern, `getBaseBranchFromLabel` never throws and
returns exactly the spec-side captured base. -/
theorem getBaseBranchFromLabel_wf (r : LabelRegExp) (hwf : WellFormedMatches r)
    (l : String) : getBaseBranchFromLabel r l = .ok (capturedBase r l) := by
  cases hx : r.exec l with
  | none => simp [getBaseBranchFromLabel, capturedBase, hx]
  | some res =>
    obtain ⟨b, hg, hb⟩ := hwf l res hx
    simp [getBaseBranchFromLabel, capturedBase, hx, hg, hb]

/-- The spec-side captured base is never the empty string. -/
theorem capturedBase_ne_empty (r : LabelRegExp) (l b : String)
    (h : capturedBase r l = some b) : b ≠ "" := by
  unfold capturedBase at h
  split at h
  · exact absurd h (by simp)
  split at h
  · split_ifs at h with hb
    cases h; exact hb
  · exact absurd h (by simp)

/-- On a well-formed pattern, mapping `getBaseBranchFromLabel` over a label
list never throws. -/
theorem mapM_getBaseBranchFromLabel (r : LabelRegExp) (hwf : WellFormedMatches r) :
    ∀ ls : List String, ls.mapM (getBaseBranchFromLabel r) = .ok (ls.map (capturedBase r))
  | [] => rfl
  | l :: ls => by
    rw [List.mapM_cons, getBaseBranchFromLabel_wf r hwf,
      mapM_getBaseBranchFromLabel r hwf ls]
    rfl

/-- `compact` of the mapped captures is the `filterMap` of the captures. -/
theorem compact_map_capturedBase (r : LabelRegExp) :
    ∀ ls : List String, compact (ls.map (capturedBase r)) = ls.filterMap (capturedBase r)
  | [] => rfl
  | l :: ls => by
    rw [List.map_cons, List.filterMap_cons]
    cases hcb : capturedBase r l with
    | none => simpa [compact, List.filterMap_cons, hcb] using compact_map_capturedBase r ls
    | some b =>
      have hb := capturedBase_ne_empty r l b hcb
      simpa [compact, List.filterMap_cons, hcb, hb] using compact_map_capturedBase r ls

/-- **C5**: for a pattern whose matches always carry a non-empty `base`
capture, the Branch Selector returns, on a `Labeled` event, the one-element
list of the captured base of the triggering label when it matches (and the
empty list otherwise), and, on a `Closed` event, exactly the captured bases
of the matching labels, in label order. -/
theorem claim_C5 (r : LabelRegExp) (hwf : WellFormedMatches r) :
    (∀ labelName pr repo,
      getBaseBranches r (.labeled labelName pr repo) = .ok (capturedBase r labelName).toList)
    ∧ (∀ pr repo,
      getBaseBranches r (.closed pr repo) = .ok (pr.labels.filterMap (capturedBase r))) := by
  constructor
  · intro labelName pr repo
    rw [getBaseBranches, getBaseBranchFromLabel_wf r hwf]
    cases hcb : capturedBase r labelName with
    | none => rfl
    | some b =>
      have hb := capturedBase_ne_empty r labelName b hcb
      simp [hb]
  · intro pr repo
    rw [getBaseBranches, mapM_getBaseBranchFromLabel r hwf]
    show Except.ok (compact (pr.labels.map (capturedBase r))) = _
    rw [compact_map_capturedBase r]

/-- The sample pattern is well formed. -/
theorem rxSample_wf : WellFormedMatches rxSample := by
  intro l res h
  simp only [rxSample] at h
  split_ifs at h with h1 h2 h3
  · cases h; exact ⟨"b1", rfl, by decide⟩
  · cases h; exact ⟨"b2", rfl, by decide⟩
  · cases h; exact ⟨"b", rfl, by decide⟩

theorem claim_C5_witness :
    WellFormedMatches rxSample
    ∧ getBaseBranches rxSample (.labeled "backport b1" prOneCommit repoSample) = .ok ["b1"]
    ∧ getBaseBranches rxSample (.labeled "other" prOneCommit repoSample) = .ok []
    ∧ getBaseBranches rxSample (.closed prTwoBranches repoSample) = .ok ["b1", "b2"] :=
  ⟨rxSample_wf,
   by rw [(claim_C5 rxSample rxSample_wf).1]; rfl,
   by rw [(claim_C5 rxSample rxSample_wf).1]; rfl,
   by rw [(claim_C5 rxSample rxSample_wf).2]; rfl⟩

/-- **C6**: a label the pattern matches with a missing or empty `base`
capture makes `getBaseBranchFromLabel` throw the configuration error naming
the pattern and the label, and a Branch Selector error makes the whole run
fail with that error before any git or network effect (the trace is empty). -/
theorem claim_C6 :
    (∀ (r : LabelRegExp) (label : String) (res : ExecResult),
      r.exec label = some res →
      res.groups = some none ∨ res.groups = some (some "") →
      getBaseBranchFromLabel r label = .error (missedBaseMessage r label))
    ∧ (∀ (env : Env) (props : BackportProps) (payload : Payload) (e : String),
      payload.pull_request.merged = true →
      payload.pull_request.merge_commit_sha.getD "" ≠ "" →
      getBaseBranches props.labelRegExp payload = .error e →
      backport env props payload = ([], .error e)) := by
  constructor
  · intro r label res hx hcase
    rcases hcase with hg | hg <;> simp [getBaseBranchFromLabel, hx, hg]
  · intro env props payload e h1 h2 h3
    have hc : ¬(payload.pull_request.merged ≠ true ∨
        payload.pull_request.merge_commit_sha.getD "" = "") := by
      simp [h1, h2]
    simp only [backport]
    rw [if_neg hc, h3]

theorem claim_C6_witness :
    rxNoCapture.exec "backport b1" = some ⟨some none⟩
    ∧ getBaseBranchFromLabel rxNoCapture "backport b1" =
        .error (missedBaseMessage rxNoCapture "backport b1")
    ∧ getBaseBranches propsNoCapture.labelRegExp (.closed prTwoCommits repoSample) =
        .error (missedBaseMessage rxNoCapture "backport b1")
    ∧ backport envAllOk propsNoCapture (.closed prTwoCommits repoSample) =
        ([], .error (missedBaseMessage rxNoCapture "backport b1")) :=
  ⟨rfl,
   claim_C6.1 rxNoCapture "backport b1" ⟨some none⟩ rfl (Or.inl rfl),
   rfl,
   claim_C6.2 envAllOk propsNoCapture (.closed prTwoCommits repoSample)
     (missedBaseMessage rxNoCapture "backport b1") (by decide) (by decide) rfl⟩

/-- **C7**: when the cherry-pick step of `backportOnce` fails (the branch
switch and branch creation having succeeded), the trace shows
`git cherry-pick --abort` run immediately after the failed cherry-pick and
nothing else, and whenever the abort command itself succeeds the original
cherry-pick error is re-raised unmodified. -/
theorem claim_C7 (env : Env) (tr : List Effect) (a : BackportOnceArgs) (e : String)
    (h1 : env.gitResult tr (some a.repo) ["switch", a.base] = .ok ())
    (h2 : env.gitResult (tr ++ [Effect.git (some a.repo) ["switch", a.base]])
      (some a.repo) ["switch", "--create", a.head] = .ok ())
    (h3 : env.gitResult
      (tr ++ [Effect.git (some a.repo) ["switch", a.base],
        Effect.git (some a.repo) ["switch", "--create", a.head]])
      (some a.repo) ["cherry-pick", "-x", a.commitSha] = .error e) :
    (backportOnce env tr a).1 =
      tr ++ [Effect.git (some a.repo) ["switch", a.base],
        Effect.git (some a.repo) ["switch", "--create", a.head],
        Effect.git (some a.repo) ["cherry-pick", "-x", a.commitSha],
        Effect.git (some a.repo) ["cherry-pick", "--abort"]]
    ∧ (env.gitResult
        (tr ++ [Effect.git (some a.repo) ["switch", a.base],
          Effect.git (some a.repo) ["switch", "--create", a.head],
          Effect.git (some a.repo) ["cherry-pick", "-x", a.commitSha]])
        (some a.repo) ["cherry-pick", "--abort"] = .ok () →
      (backportOnce env tr a).2 = .error e) := by
  simp only [backportOnce, gitStep, List.append_assoc, List.cons_append, List.nil_append,
    h1, h2, h3]
  constructor
  · cases h4 : env.gitResult
        (tr ++ [Effect.git (some a.repo) ["switch", a.base],
          Effect.git (some a.repo) ["switch", "--create", a.head],
          Effect.git (some a.repo) ["cherry-pick", "-x", a.commitSha]])
        (some a.repo) ["cherry-pick", "--abort"] <;>
      simp [h4]
  · intro h4
    simp [h4]

theorem claim_C7_witness :
    envPickConflict.gitResult [] (some "action-backport") ["switch", "b1"] = .ok ()
    ∧ envPickConflict.gitResult
        [Effect.git (some "action-backport") ["switch", "b1"]]
        (some "action-backport") ["switch", "--create", "h"] = .ok ()
    ∧ envPickConflict.gitResult
        [Effect.git (some "action-backport") ["switch", "b1"],
          Effect.git (some "action-backport") ["switch", "--create", "h"]]
        (some "action-backport") ["cherry-pick", "-x", "abc"] = .error "conflict"
    ∧ (backportOnce envPickConflict [] argsConflict).1 =
        [Effect.git (some "action-backport") ["switch", "b1"],
          Effect.git (some "action-backport") ["switch", "--create", "h"],
          Effect.git (some "action-backport") ["cherry-pick", "-x", "abc"],
          Effect.git (some "action-backport") ["cherry-pick", "--abort"]]
    ∧ (backportOnce envPickConflict [] argsConflict).2 = .error "conflict" := by
  have h := claim_C7 envPickConflict [] argsConflict "conflict" rfl rfl rfl
  exact ⟨rfl, rfl, rfl, h.1, h.2 rfl⟩

/-- Updating the result map then reading the updated key yields the new
value. -/
theorem getEntry_setEntry_same (m : List (String × Nat)) (k : String) (v : Nat) :
    getEntry (setEntry m k v) k = some v := by
  induction m with
  | nil => simp [setEntry, getEntry]
  | cons p m ih =>
    by_cases hp : p.1 = k
    · simp [setEntry, getEntry, hp]
    · by_cases hany : m.any (fun q => q.1 = k)
      · simp only [setEntry, List.any_cons, hp, decide_False, Bool.false_or, hany,
          if_true, List.map_cons, if_neg hp]
        simpa [getEntry, hp, setEntry, hany] using ih
      · simp only [setEntry, List.any_cons, hp, decide_False, Bool.false_or, hany,
          if_false, List.cons_append]
        simpa [getEntry, hp, setEntry, hany] using ih

/-- Overwriting the entry for `k` leaves lookups of other keys unchanged. -/
theorem getEntry_map_setKey (k : String) (v : Nat) (b : String) (hb : b ≠ k) :
    ∀ m : List (String × Nat),
      getEntry (m.map fun p => if p.1 = k then (k, v) else p) b = getEntry m b
  | [] => rfl
  | p :: m => by
    by_cases hpk : p.1 = k
    · have hpb : ¬p.1 = b := fun h => hb ((h.symm.trans hpk))
      have hkb : ¬k = b := fun h => hb h.symm
      simp only [List.map_cons, if_pos hpk, getEntry, List.find?]
      simp only [hkb, decide_False, hpb]
      exact getEntry_map_setKey k v b hb m
    · by_cases hpb : p.1 = b
      · rw [List.map_cons, if_neg hpk]
        simp only [getEntry, List.find?, hpb, decide_True]
      · simp only [List.map_cons, if_neg hpk, getEntry, List.find?, hpb, decide_False]
        exact getEntry_map_setKey k v b hb m

/-- Appending the entry for `k` leaves lookups of other keys unchanged. -/
theorem getEntry_append_setKey (k : String) (v : Nat) (b : String) (hb : b ≠ k) :
    ∀ m : List (String × Nat), getEntry (m ++ [(k, v)]) b = getEntry m b
  | [] => by
    have hkb : ¬k = b := fun h => hb h.symm
    simp [getEntry, List.find?, hkb]
  | p :: m => by
    by_cases hpb : p.1 = b
    · simp [getEntry, List.find?, hpb]
    · simp only [List.cons_append, getEntry, List.find?, hpb, decide_False]
      exact getEntry_append_setKey k v b hb m

/-- Updating the result map does not change other keys. -/
theorem getEntry_setEntry_other (m : List (String × Nat)) (k : String) (v : Nat)
    (b : String) (hb : b ≠ k) : getEntry (setEntry m k v) b = getEntry m b := by
  unfold setEntry
  by_cases hany : m.any (fun q => q.1 = k) <;> simp only [hany, if_true, if_false]
  · exact getEntry_map_setKey k v b hb m
  · exact getEntry_append_setKey k v b hb m

/-- Folding `lastStep` from an arbitrary accumulator: the fold's result is
the last success in the list when there is one, the accumulator otherwise. -/
theorem foldl_lastStep (b : String) :
    ∀ (t : List (String × Option Nat)) (acc : Option Nat),
      t.foldl (lastStep b) acc =
        match t.foldl (lastStep b) none with
        | some n => some n
        | none => acc
  | [], acc => by simp
  | p :: t, acc => by
    rw [List.foldl_cons, List.foldl_cons, foldl_lastStep b t (lastStep b acc p),
      foldl_lastStep b t (lastStep b none p)]
    cases htn : t.foldl (lastStep b) none with
    | some n => rfl
    | none =>
      unfold lastStep
      by_cases hpb : p.1 = b
      · cases hp2 : p.2 <;> simp [hpb]
      · simp [hpb]

/-- The spec-side outcome list has one entry per base branch, in order. -/
theorem loopOutcomesSpec_fst (env : Env) (props : BackportProps) (payload : Payload) :
    ∀ (bases : List String) (tr : List Effect),
      (loopOutcomesSpec env props payload bases tr).map Prod.fst = bases
  | [], _ => rfl
  | base :: rest, tr => by
    rw [loopOutcomesSpec]
    rcases hp : processBranch env props payload tr base with ⟨tr1, r⟩
    cases r with
    | ok o => simp [loopOutcomesSpec_fst env props payload rest tr1]
    | error e => simp [loopOutcomesSpec_fst env props payload rest tr1]

/-- When the loop completes, the final result map holds, for every base
branch, the number of the last successful attempt recorded in the spec-side
outcomes, and otherwise whatever the initial map held. -/
theorem backportLoop_getEntry (env : Env) (props : BackportProps) (payload : Payload) :
    ∀ (bases : List String) (tr : List Effect) (m : List (String × Nat))
      (tr' : List Effect) (m' : List (String × Nat)),
      backportLoop env props payload bases tr m = (tr', .ok m') →
      ∀ b, getEntry m' b =
        match lastSuccessNumber (loopOutcomesSpec env props payload bases tr) b with
        | some n => some n
        | none => getEntry m b
  | [], tr, m, tr', m', h, b => by
    rw [backportLoop] at h
    cases h
    rfl
  | base :: rest, tr, m, tr', m', h, b => by
    rw [backportLoop] at h
    rw [loopOutcomesSpec]
    rcases hp : processBranch env props payload tr base with ⟨tr1, r⟩
    rw [hp] at h
    cases r with
    | error e => cases h
    | ok o =>
      cases o with
      | none =>
        have ih := backportLoop_getEntry env props payload rest tr1 m tr' m' h b
        rw [ih]
        show _ = match List.foldl (lastStep b) (lastStep b none (base, none)) _ with
          | some n => some n
          | none => getEntry m b
        have hstep : lastStep b none (base, none) = none := by
          unfold lastStep
          split <;> rfl
        rw [hstep]
        rfl
      | some n =>
        have ih := backportLoop_getEntry env props payload rest tr1 (setEntry m base n)
          tr' m' h b
        rw [ih]
        show _ = match List.foldl (lastStep b) (lastStep b none (base, some n)) _ with
          | some k => some k
          | none => getEntry m b
        rw [foldl_lastStep b _ (lastStep b none (base, some n))]
        show _ = match (match lastSuccessNumber
              (loopOutcomesSpec env props payload rest tr1) b with
            | some k => some k
            | none => lastStep b none (base, some n)) with
          | some k => some k
          | none => getEntry m b
        cases htn : lastSuccessNumber (loopOutcomesSpec env props payload rest tr1) b with
        | some k => rfl
        | none =>
          have hstep : lastStep b none (base, some n) =
              if base = b then some n else none := by
            unfold lastStep
            rfl
          rw [hstep]
          by_cases hbb : base = b
          · subst hbb
            simp [getEntry_setEntry_same]
          · have hb : b ≠ base := fun h => hbb h.symm
            simp [hbb, getEntry_setEntry_other m base n b hb]

/-- When posting recovery comments succeeds, one loop iteration never
escapes with an error. -/
theorem processBranch_ok (env : Env) (props : BackportProps) (payload : Payload)
    (hc : ∀ tr o r n b, env.createCommentResult tr o r n b = .ok ())
    (tr : List Effect) (base : String) :
    ∃ tr1 o, processBranch env props payload tr base = (tr1, .ok o) := by
  rcases hb : backportOnce env tr (mkBackportOnceArgs props payload base) with ⟨trB, r⟩
  cases r with
  | ok n => exact ⟨trB, some n, by simp only [processBranch, hb]⟩
  | error e =>
    refine ⟨trB ++ [Effect.apiCreateComment payload.repository.owner
      payload.repository.name payload.pull_request.number
      (getFailedBackportCommentBody base (commitToBackport payload.pull_request) e
        (mkBackportOnceArgs props payload base).head)], none, ?_⟩
    simp only [processBranch, hb, hc]

/-- When posting recovery comments succeeds, the loop always completes with a
result map: no per-branch failure stops it. -/
theorem backportLoop_ok (env : Env) (props : BackportProps) (payload : Payload)
    (hc : ∀ tr o r n b, env.createCommentResult tr o r n b = .ok ()) :
    ∀ (bases : List String) (tr : List Effect) (m : List (String × Nat)),
      ∃ tr' m', backportLoop env props payload bases tr m = (tr', .ok m')
  | [], tr, m => ⟨tr, m, rfl⟩
  | base :: rest, tr, m => by
    obtain ⟨tr1, o, hp⟩ := processBranch_ok env props payload hc tr base
    cases o with
    | none =>
      obtain ⟨tr', m', h⟩ := backportLoop_ok env props payload hc rest tr1 m
      exact ⟨tr', m', by rw [backportLoop, hp]; exact h⟩
    | some n =>
      obtain ⟨tr', m', h⟩ := backportLoop_ok env props payload hc rest tr1 (setEntry m base n)
      exact ⟨tr', m', by rw [backportLoop, hp]; exact h⟩

/-- `backportOnce` only appends to the trace. -/
theorem backportOnce_trace (env : Env) (tr : List Effect) (a : BackportOnceArgs) :
    ∃ ext, (backportOnce env tr a).1 = tr ++ ext := by
  unfold backportOnce gitStep
  dsimp only
  repeat' split
  all_goals dsimp only
  all_goals try simp only [List.append_assoc]
  all_goals exact ⟨_, rfl⟩

/-- `processBranch` only appends to the trace. -/
theorem processBranch_trace (env : Env) (props : BackportProps) (payload : Payload)
    (tr : List Effect) (base : String) :
    ∃ ext, (processBranch env props payload tr base).1 = tr ++ ext := by
  obtain ⟨extB, hB⟩ := backportOnce_trace env tr (mkBackportOnceArgs props payload base)
  unfold processBranch
  rcases hb : backportOnce env tr (mkBackportOnceArgs props payload base) with ⟨trB, r⟩
  rw [hb] at hB
  cases r with
  | ok n => exact ⟨extB, hB⟩
  | error e =>
    dsimp only at hB ⊢
    split <;>
      (simp only [hB, List.append_assoc]
       exact ⟨_, rfl⟩)

/-- The loop only appends to the trace. -/
theorem backportLoop_trace (env : Env) (props : BackportProps) (payload : Payload) :
    ∀ (bases : List String) (tr : List Effect) (m : List (String × Nat)),
      ∃ ext, (backportLoop env props payload bases tr m).1 = tr ++ ext
  | [], tr, m => ⟨[], by simp [backportLoop]⟩
  | base :: rest, tr, m => by
    obtain ⟨extP, hP⟩ := processBranch_trace env props payload tr base
    rw [backportLoop]
    rcases hp : processBranch env props payload tr base with ⟨tr1, r⟩
    rw [hp] at hP
    dsimp only at hP
    cases r with
    | error e => exact ⟨extP, hP⟩
    | ok o =>
      cases o with
      | none =>
        obtain ⟨ext, hext⟩ := backportLoop_trace env props payload rest tr1 m
        exact ⟨extP ++ ext, by rw [hext, hP, List.append_assoc]⟩
      | some n =>
        obtain ⟨ext, hext⟩ := backportLoop_trace env props payload rest tr1 (setEntry m base n)
        exact ⟨extP ++ ext, by rw [hext, hP, List.append_assoc]⟩

/-- A handled per-branch failure leaves the recovery comment for that base
branch in the trace. -/
theorem processBranch_none_comment (env : Env) (props : BackportProps) (payload : Payload)
    (tr : List Effect) (base : String) (tr1 : List Effect)
    (h : processBranch env props payload tr base = (tr1, .ok none)) :
    ∃ e, Effect.apiCreateComment payload.repository.owner payload.repository.name
        payload.pull_request.number
        (getFailedBackportCommentBody base (commitToBackport payload.pull_request) e
          (props.getHead base payload.pull_request.number)) ∈ tr1 := by
  unfold processBranch at h
  rcases hb : backportOnce env tr (mkBackportOnceArgs props payload base) with ⟨trB, r⟩
  rw [hb] at h
  cases r with
  | ok n => simp at h
  | error e =>
    refine ⟨e, ?_⟩
    dsimp only at h
    rcases hcr : env.createCommentResult trB payload.repository.owner
        payload.repository.name payload.pull_request.number
        (getFailedBackportCommentBody base (commitToBackport payload.pull_request) e
          (mkBackportOnceArgs props payload base).head) with e2 | u <;>
      rw [hcr] at h
    · simp at h
    · injection h with h1 h2
      subst h1
      have hhead : (mkBackportOnceArgs props payload base).head =
          props.getHead base payload.pull_request.number := rfl
      rw [← hhead]
      exact List.mem_append_right trB (by simp)

/-- Under successful comment posting, every failed outcome of the loop has
its recovery comment somewhere in the final trace. -/
theorem backportLoop_comment (env : Env) (props : BackportProps) (payload : Payload)
    (hc : ∀ tr o r n b, env.createCommentResult tr o r n b = .ok ()) :
    ∀ (bases : List String) (tr : List Effect) (m : List (String × Nat))
      (p : String × Option Nat),
      p ∈ loopOutcomesSpec env props payload bases tr → p.2 = none →
      ∃ e, Effect.apiCreateComment payload.repository.owner payload.repository.name
          payload.pull_request.number
          (getFailedBackportCommentBody p.1 (commitToBackport payload.pull_request) e
            (props.getHead p.1 payload.pull_request.number))
        ∈ (backportLoop env props payload bases tr m).1
  | [], tr, m, p, hmem, _ => absurd hmem (by simp [loopOutcomesSpec])
  | base :: rest, tr, m, p, hmem, hp2 => by
    obtain ⟨tr1, o, hpb⟩ := processBranch_ok env props payload hc tr base
    rw [loopOutcomesSpec, hpb] at hmem
    rw [backportLoop, hpb]
    rcases List.mem_cons.mp hmem with hfst | hrest
    · subst hfst
      cases o with
      | some n => simp at hp2
      | none =>
        obtain ⟨e, he⟩ := processBranch_none_comment env props payload tr base tr1 hpb
        obtain ⟨ext, hext⟩ := backportLoop_trace env props payload rest tr1 m
        refine ⟨e, ?_⟩
        show _ ∈ (backportLoop env props payload rest tr1 m).1
        rw [hext]
        exact List.mem_append_left ext he
    · cases o with
      | none => exact backportLoop_comment env props payload hc rest tr1 m p hrest hp2
      | some n =>
        exact backportLoop_comment env props payload hc rest tr1 (setEntry m base n) p
          hrest hp2

/-- When the guard passes, branch selection succeeds non-emptily and the
advisory lookup, clone and git configuration all succeed, `backport` is the
per-branch loop run from the setup trace with an empty result map. -/
theorem backport_eq_loop (env : Env) (props : BackportProps) (payload : Payload)
    (bases : List String) (allow : Bool)
    (hm : payload.pull_request.merged = true)
    (hs : payload.pull_request.merge_commit_sha.getD "" ≠ "")
    (hb : getBaseBranches props.labelRegExp payload = .ok bases)
    (hne : bases ≠ [])
    (hr : env.getRepoResult [] payload.repository.owner payload.repository.name = .ok allow)
    (hg1 : env.gitResult
      [Effect.apiGetRepo payload.repository.owner payload.repository.name] none
      ["clone", authenticatedUrl payload.repository.clone_url props.token] = .ok ())
    (hg2 : env.gitResult
      [Effect.apiGetRepo payload.repository.owner payload.repository.name,
        Effect.git none ["clone", authenticatedUrl payload.repository.clone_url props.token]]
      none ["config", "--global", "user.email",
        "github-actions[bot]@users.noreply.github.com"] = .ok ())
    (hg3 : env.gitResult
      [Effect.apiGetRepo payload.repository.owner payload.repository.name,
        Effect.git none ["clone", authenticatedUrl payload.repository.clone_url props.token],
        Effect.git none ["config", "--global", "user.email",
          "github-actions[bot]@users.noreply.github.com"]]
      none ["config", "--global", "user.name", "github-actions[bot]"] = .ok ()) :
    backport env props payload =
      backportLoop env props payload bases (setupEffects props payload) [] := by
  have hcnot : ¬(payload.pull_request.merged ≠ true ∨
      payload.pull_request.merge_commit_sha.getD "" = "") := by
    simp [hm, hs]
  have hlen : ¬(bases.length = 0) := by
    simpa using hne
  simp only [backport]
  rw [if_neg hcnot, hb]
  show (if bases.length = 0 then _ else _) = _
  rw [if_neg hlen]
  simp only [warnIfMergeCommitIsAllowedMergeMethod, gitStep, List.nil_append,
    List.cons_append, List.singleton_append, hr, hg1, hg2, hg3, setupEffects]

/-- **C4** (amended: provided each recovery-comment API call succeeds): for
every run reaching the per-branch loop, a per-branch failure of the
Single-Branch Backporter posts a recovery comment on the original pull
request and never prevents the attempt on any later branch — the loop
completes with a result map holding an entry for each (last-)successful
branch and no entry for a branch all of whose attempts failed. -/
theorem claim_C4 (env : Env) (props : BackportProps) (payload : Payload)
    (bases : List String) (allow : Bool)
    (hcomment : ∀ tr o r n b, env.createCommentResult tr o r n b = .ok ())
    (hm : payload.pull_request.merged = true)
    (hs : payload.pull_request.merge_commit_sha.getD "" ≠ "")
    (hb : getBaseBranches props.labelRegExp payload = .ok bases)
    (hne : bases ≠ [])
    (hr : env.getRepoResult [] payload.repository.owner payload.repository.name = .ok allow)
    (hg1 : env.gitResult
      [Effect.apiGetRepo payload.repository.owner payload.repository.name] none
      ["clone", authenticatedUrl payload.repository.clone_url props.token] = .ok ())
    (hg2 : env.gitResult
      [Effect.apiGetRepo payload.repository.owner payload.repository.name,
        Effect.git none ["clone", authenticatedUrl payload.repository.clone_url props.token]]
      none ["config", "--global", "user.email",
        "github-actions[bot]@users.noreply.github.com"] = .ok ())
    (hg3 : env.gitResult
      [Effect.apiGetRepo payload.repository.owner payload.repository.name,
        Effect.git none ["clone", authenticatedUrl payload.repository.clone_url props.token],
        Effect.git none ["config", "--global", "user.email",
          "github-actions[bot]@users.noreply.github.com"]]
      none ["config", "--global", "user.name", "github-actions[bot]"] = .ok ()) :
    ∃ tr' m', backport env props payload = (tr', .ok m')
      ∧ (loopOutcomesSpec env props payload bases (setupEffects props payload)).map
          Prod.fst = bases
      ∧ (∀ b, getEntry m' b =
          lastSuccessNumber
            (loopOutcomesSpec env props payload bases (setupEffects props payload)) b)
      ∧ (∀ p ∈ loopOutcomesSpec env props payload bases (setupEffects props payload),
          p.2 = none →
          ∃ e, Effect.apiCreateComment payload.repository.owner payload.repository.name
              payload.pull_request.number
              (getFailedBackportCommentBody p.1 (commitToBackport payload.pull_request) e
                (props.getHead p.1 payload.pull_request.number)) ∈ tr') := by
  have hbl := backport_eq_loop env props payload bases allow hm hs hb hne hr hg1 hg2 hg3
  obtain ⟨tr', m', hloop⟩ :=
    backportLoop_ok env props payload hcomment bases (setupEffects props payload) []
  refine ⟨tr', m', ?_, loopOutcomesSpec_fst env props payload bases _, ?_, ?_⟩
  · rw [hbl, hloop]
  · intro b
    have hchar := backportLoop_getEntry env props payload bases
      (setupEffects props payload) [] tr' m' hloop b
    rw [hchar]
    cases lastSuccessNumber
        (loopOutcomesSpec env props payload bases (setupEffects props payload)) b with
    | some n => rfl
    | none => rfl
  · intro p hmem hp2
    have hcm := backportLoop_comment env props payload hcomment bases
      (setupEffects props payload) [] p hmem hp2
    rw [hloop] at hcm
    exact hcm

/-- **C4 counterexample**: with two target branches `b1, b2`, when the
cherry-pick for `b1` conflicts and posting the recovery comment also fails,
the run aborts with the comment-posting error, the trace shows the failed
`b1` attempt (cherry-pick abort), and `b2` is never attempted — so a
per-branch failure can prevent later branches, refuting the claim as
stated. -/
theorem claim_C4_counterexample :
    (backport envCommentFails propsSample (.closed prTwoBranches repoSample)).2 =
      .error "comment failed"
    ∧ Effect.git (some "action-backport") ["cherry-pick", "--abort"]
        ∈ (backport envCommentFails propsSample (.closed prTwoBranches repoSample)).1
    ∧ Effect.git (some "action-backport") ["switch", "b2"]
        ∉ (backport envCommentFails propsSample (.closed prTwoBranches repoSample)).1 :=
  ⟨rfl, by decide, by decide⟩

theorem claim_C4_witness :
    (∀ tr o r n b, envAllOk.createCommentResult tr o r n b = .ok ())
    ∧ getBaseBranches propsSample.labelRegExp (.closed prTwoBranches repoSample) =
        .ok ["b1", "b2"]
    ∧ ∃ tr' m',
        backport envAllOk propsSample (.closed prTwoBranches repoSample) = (tr', .ok m')
        ∧ (loopOutcomesSpec envAllOk propsSample (.closed prTwoBranches repoSample)
            ["b1", "b2"]
            (setupEffects propsSample (.closed prTwoBranches repoSample))).map
            Prod.fst = ["b1", "b2"]
        ∧ (∀ b, getEntry m' b =
            lastSuccessNumber (loopOutcomesSpec envAllOk propsSample
              (.closed prTwoBranches repoSample) ["b1", "b2"]
              (setupEffects propsSample (.closed prTwoBranches repoSample))) b)
        ∧ (∀ p ∈ loopOutcomesSpec envAllOk propsSample
            (.closed prTwoBranches repoSample) ["b1", "b2"]
            (setupEffects propsSample (.closed prTwoBranches repoSample)),
            p.2 = none →
            ∃ e, Effect.apiCreateComment
                (Payload.closed prTwoBranches repoSample).repository.owner
                (Payload.closed prTwoBranches repoSample).repository.name
                (Payload.closed prTwoBranches repoSample).pull_request.number
                (getFailedBackportCommentBody p.1
                  (commitToBackport (Payload.closed prTwoBranches repoSample).pull_request) e
                  (propsSample.getHead p.1
                    (Payload.closed prTwoBranches repoSample).pull_request.number)) ∈ tr') :=
  ⟨fun _ _ _ _ _ => rfl, rfl,
    claim_C4 envAllOk propsSample (.closed prTwoBranches repoSample) ["b1", "b2"] false
      (fun _ _ _ _ _ => rfl) (by decide) (by decide) rfl (by decide) rfl rfl rfl rfl⟩

/-- **C10**: the Branch Selector deduplicates nothing — on a `Closed` event a
base branch captured by several labels appears once per capturing label in
the target list; the loop then attempts a backport once per occurrence
(one outcome per occurrence, in order), and the returned result map records,
for every base branch, exactly the pull-request number of the last successful
attempt for it. -/
theorem claim_C10 (env : Env) (props : BackportProps) (pr : PullRequest)
    (repo : Repository) (allow : Bool)
    (hwf : WellFormedMatches props.labelRegExp)
    (hcomment : ∀ tr o r n b, env.createCommentResult tr o r n b = .ok ())
    (hm : pr.merged = true)
    (hs : pr.merge_commit_sha.getD "" ≠ "")
    (hne : pr.labels.filterMap (capturedBase props.labelRegExp) ≠ [])
    (hr : env.getRepoResult [] repo.owner repo.name = .ok allow)
    (hg1 : env.gitResult [Effect.apiGetRepo repo.owner repo.name] none
      ["clone", authenticatedUrl repo.clone_url props.token] = .ok ())
    (hg2 : env.gitResult
      [Effect.apiGetRepo repo.owner repo.name,
        Effect.git none ["clone", authenticatedUrl repo.clone_url props.token]]
      none ["config", "--global", "user.email",
        "github-actions[bot]@users.noreply.github.com"] = .ok ())
    (hg3 : env.gitResult
      [Effect.apiGetRepo repo.owner repo.name,
        Effect.git none ["clone", authenticatedUrl repo.clone_url props.token],
        Effect.git none ["config", "--global", "user.email",
          "github-actions[bot]@users.noreply.github.com"]]
      none ["config", "--global", "user.name", "github-actions[bot]"] = .ok ()) :
    getBaseBranches props.labelRegExp (.closed pr repo) =
      .ok (pr.labels.filterMap (capturedBase props.labelRegExp))
    ∧ ∃ tr' m',
        backport env props (.closed pr repo) = (tr', .ok m')
        ∧ (loopOutcomesSpec env props (.closed pr repo)
            (pr.labels.filterMap (capturedBase props.labelRegExp))
            (setupEffects props (.closed pr repo))).map Prod.fst =
          pr.labels.filterMap (capturedBase props.labelRegExp)
        ∧ ∀ b, getEntry m' b =
            lastSuccessNumber
              (loopOutcomesSpec env props (.closed pr repo)
                (pr.labels.filterMap (capturedBase props.labelRegExp))
                (setupEffects props (.closed pr repo))) b := by
  have hb : getBaseBranches props.labelRegExp (.closed pr repo) =
      .ok (pr.labels.filterMap (capturedBase props.labelRegExp)) := by
    rw [getBaseBranches, mapM_getBaseBranchFromLabel props.labelRegExp hwf]
    show Except.ok (compact (pr.labels.map (capturedBase props.labelRegExp))) = _
    rw [compact_map_capturedBase]
  refine ⟨hb, ?_⟩
  have hbl := backport_eq_loop env props (.closed pr repo)
    (pr.labels.filterMap (capturedBase props.labelRegExp)) allow hm hs hb hne hr hg1 hg2 hg3
  obtain ⟨tr', m', hloop⟩ := backportLoop_ok env props (.closed pr repo) hcomment
    (pr.labels.filterMap (capturedBase props.labelRegExp))
    (setupEffects props (.closed pr repo)) []
  refine ⟨tr', m', ?_, loopOutcomesSpec_fst env props (.closed pr repo) _ _, ?_⟩
  · rw [hbl, hloop]
  · intro b
    have hchar := backportLoop_getEntry env props (.closed pr repo)
      (pr.labels.filterMap (capturedBase props.labelRegExp))
      (setupEffects props (.closed pr repo)) [] tr' m' hloop b
    rw [hchar]
    cases lastSuccessNumber
        (loopOutcomesSpec env props (.closed pr repo)
          (pr.labels.filterMap (capturedBase props.labelRegExp))
          (setupEffects props (.closed pr repo))) b with
    | some n => rfl
    | none => rfl

theorem claim_C10_witness :
    prDuplicate.labels.filterMap (capturedBase propsSample.labelRegExp) = ["b", "b"]
    ∧ (backport envAllOk propsSample (.closed prDuplicate repoSample)).2 =
        .ok [("b", 101)]
    ∧ (getBaseBranches propsSample.labelRegExp (.closed prDuplicate repoSample) =
        .ok (prDuplicate.labels.filterMap (capturedBase propsSample.labelRegExp))
      ∧ ∃ tr' m',
          backport envAllOk propsSample (.closed prDuplicate repoSample) = (tr', .ok m')
          ∧ (loopOutcomesSpec envAllOk propsSample (.closed prDuplicate repoSample)
              (prDuplicate.labels.filterMap (capturedBase propsSample.labelRegExp))
              (setupEffects propsSample (.closed prDuplicate repoSample))).map Prod.fst =
            prDuplicate.labels.filterMap (capturedBase propsSample.labelRegExp)
          ∧ ∀ b, getEntry m' b =
              lastSuccessNumber
                (loopOutcomesSpec envAllOk propsSample (.closed prDuplicate repoSample)
                  (prDuplicate.labels.filterMap (capturedBase propsSample.labelRegExp))
                  (setupEffects propsSample (.closed prDuplicate repoSample))) b) :=
  ⟨by decide, rfl,
    claim_C10 envAllOk propsSample prDuplicate repoSample false rxSample_wf
      (fun _ _ _ _ _ => rfl) (by decide) (by decide) (by decide) rfl rfl rfl rfl⟩

set_option maxRecDepth 20000 in
set_option maxHeartbeats 4000000 in
/-- **C8**: the Failure Reporter `getFailedBackportCommentBody` is a pure
function of `(base, commitSpec, errorMessage, head)`: it always returns the
explicit string below (so equal inputs give byte-for-byte equal comments),
which carries the error message verbatim inside a fenced block, the literal
worktree path `.worktrees/backport-<base>`, the exact command sequence
fetch → worktree add → cd → branch create → cherry-pick -x → push
--set-upstream → cd back → worktree remove, and ends with the instruction to
open a pull request from `head` into `base` manually. -/
theorem claim_C8 (base commitSha errorMessage head : String) :
    getFailedBackportCommentBody base commitSha errorMessage head =
      "The backport to `" ++ base ++ "` failed:\n```\n" ++ errorMessage ++
        "\n```\nTo backport manually, run these commands in your terminal:\n```bash\n" ++
        "# Fetch latest updates from GitHub\ngit fetch\n" ++
        "# Create a new working tree\ngit worktree add .worktrees/backport-" ++ base ++
        " " ++ base ++ "\n" ++
        "# Navigate to the new working tree\ncd .worktrees/backport-" ++ base ++ "\n" ++
        "# Create a new branch\ngit switch --create " ++ head ++ "\n" ++
        "# Cherry-pick the merged commits of this pull request and resolve the conflicts\n" ++
        "git cherry-pick -x " ++ commitSha ++ "\n" ++
        "# Push it to GitHub\ngit push --set-upstream origin " ++ head ++ "\n" ++
        "# Go back to the original working tree\ncd ../..\n" ++
        "# Delete the working tree\ngit worktree remove .worktrees/backport-" ++ base ++
        "\n```\n" ++
        "Then, create a pull request where the `base` branch is `" ++ base ++
        "` and the `compare`/`head` branch is `" ++ head ++ "`."
    ∧ (∃ u v, getFailedBackportCommentBody base commitSha errorMessage head =
        u ++ ("```" ++ "\n" ++ errorMessage ++ "\n" ++ "```") ++ v)
    ∧ (∃ u v, getFailedBackportCommentBody base commitSha errorMessage head =
        u ++ (".worktrees/backport-" ++ base) ++ v)
    ∧ (∃ u, getFailedBackportCommentBody base commitSha errorMessage head =
        u ++ ("Then, create a pull request where the `base` branch is `" ++ base ++
          "` and the `compare`/`head` branch is `" ++ head ++ "`.")) := by
  refine ⟨?_,
    ⟨"The backport to `" ++ base ++ "` failed:\n",
     "\nTo backport manually, run these commands in your terminal:\n```bash\n" ++
       "# Fetch latest updates from GitHub\ngit fetch\n" ++
       "# Create a new working tree\ngit worktree add .worktrees/backport-" ++ base ++
       " " ++ base ++ "\n" ++
       "# Navigate to the new working tree\ncd .worktrees/backport-" ++ base ++ "\n" ++
       "# Create a new branch\ngit switch --create " ++ head ++ "\n" ++
       "# Cherry-pick the merged commits of this pull request and resolve the conflicts\n" ++
       "git cherry-pick -x " ++ commitSha ++ "\n" ++
       "# Push it to GitHub\ngit push --set-upstream origin " ++ head ++ "\n" ++
       "# Go back to the original working tree\ncd ../..\n" ++
       "# Delete the working tree\ngit worktree remove .worktrees/backport-" ++ base ++
       "\n```\n" ++
       "Then, create a pull request where the `base` branch is `" ++ base ++
       "` and the `compare`/`head` branch is `" ++ head ++ "`.", ?_⟩,
    ⟨"The backport to `" ++ base ++ "` failed:\n```\n" ++ errorMessage ++
       "\n```\nTo backport manually, run these commands in your terminal:\n```bash\n" ++
       "# Fetch latest updates from GitHub\ngit fetch\n" ++
       "# Create a new working tree\ngit worktree add ",
     " " ++ base ++ "\n" ++
       "# Navigate to the new working tree\ncd .worktrees/backport-" ++ base ++ "\n" ++
       "# Create a new branch\ngit switch --create " ++ head ++ "\n" ++
       "# Cherry-pick the merged commits of this pull request and resolve the conflicts\n" ++
       "git cherry-pick -x " ++ commitSha ++ "\n" ++
       "# Push it to GitHub\ngit push --set-upstream origin " ++ head ++ "\n" ++
       "# Go back to the original working tree\ncd ../..\n" ++
       "# Delete the working tree\ngit worktree remove .worktrees/backport-" ++ base ++
       "\n```\n" ++
       "Then, create a pull request where the `base` branch is `" ++ base ++
       "` and the `compare`/`head` branch is `" ++ head ++ "`.", ?_⟩,
    ⟨"The backport to `" ++ base ++ "` failed:\n```\n" ++ errorMessage ++
       "\n```\nTo backport manually, run these commands in your terminal:\n```bash\n" ++
       "# Fetch latest updates from GitHub\ngit fetch\n" ++
       "# Create a new working tree\ngit worktree add .worktrees/backport-" ++ base ++
       " " ++ base ++ "\n" ++
       "# Navigate to the new working tree\ncd .worktrees/backport-" ++ base ++ "\n" ++
       "# Create a new branch\ngit switch --create " ++ head ++ "\n" ++
       "# Cherry-pick the merged commits of this pull request and resolve the conflicts\n" ++
       "git cherry-pick -x " ++ commitSha ++ "\n" ++
       "# Push it to GitHub\ngit push --set-upstream origin " ++ head ++ "\n" ++
       "# Go back to the original working tree\ncd ../..\n" ++
       "# Delete the working tree\ngit worktree remove .worktrees/backport-" ++ base ++
       "\n```\n", ?_⟩⟩ <;>
  · apply String.ext
    simp [getFailedBackportCommentBody, String.intercalate, String.intercalate.go,
      String.data_append, List.append_assoc]

end ActionBackport
